import Mathlib

/-
Verification of the datashield-vault synchronization core.

Shallow embedding of the Python sources under src/app/src/vault/:
  - db/repository.py        (catalog: collections and objects)
  - watcher/handler.py      (path coordinator gate and ingestion handler)
  - minio_client/circuit_breaker.py and client.py
  - sync/state.py           (sync barrier predicate)
  - api/auth.py             (auth rate limiter)
  - monitoring/metrics.py   (Counter metric)

Modelling conventions:
  - Python wall-clock timestamps (time.time()) are rationals passed explicitly.
  - Python dicts keyed by strings are association lists with the helpers below.
  - Logging and metric side effects that do not feed back into control flow are
    omitted; SHA-256 (hashlib) and secrets.token_hex are external collaborators
    and appear as explicit function/value parameters.
  - Database tables are lists of rows; SQLAlchemy update/delete statements
    become list transformations.
-/

namespace Vault

/-- Lookup in a string-keyed association list (a Python dict). -/
def lookupKey {β : Type} : List (String × β) → String → Option β
  | [], _ => none
  | (a, b) :: m, k => if a = k then some b else lookupKey m k

/-- Python dict assignment `d[k] = v`: replace in place if present, else append. -/
def setKey {β : Type} : List (String × β) → String → β → List (String × β)
  | [], k, v => [(k, v)]
  | (a, b) :: m, k, v => if a = k then (k, v) :: m else (a, b) :: setKey m k v

/-- Python dict `d.pop(k, None)` / `del d[k]`: remove the entry for `k`. -/
def eraseKey {β : Type} (m : List (String × β)) (k : String) : List (String × β) :=
  m.filter (fun p => p.1 != k)

theorem lookupKey_eraseKey {β : Type} (m : List (String × β)) (k : String) :
    lookupKey (eraseKey m k) k = none := by
  induction m with
  | nil => rfl
  | cons p m ih =>
    obtain ⟨a, b⟩ := p
    simp only [eraseKey, List.filter_cons] at ih ⊢
    by_cases h : a = k
    · simp [h, ih]
    · simp [h, lookupKey, ih]

/-- Python str.startswith, structurally on the character lists. -/
def startsWithChars : List Char → List Char → Bool
  | [], _ => true
  | _ :: _, [] => false
  | c :: cs, d :: ds => c == d && startsWithChars cs ds

/-- Python str.startswith: does s start with pre. -/
def strStartsWith (s pre : String) : Bool := startsWithChars pre.data s.data

/-- Characters of the final component of a slash-separated path, accumulated
in reverse and reset at each slash. -/
def basenameAux : List Char → List Char → List Char
  | acc, [] => acc.reverse
  | acc, c :: cs =>
    if c = ('/') then basenameAux [] cs else basenameAux (c :: acc) cs

/-- Path(p).name: the final component of a slash-separated path string. -/
def basename (p : String) : String := String.mk (basenameAux [] p.data)

theorem lookupKey_setKey_self {β : Type} (m : List (String × β)) (k : String) (v : β) :
    lookupKey (setKey m k v) k = some v := by
  induction m with
  | nil => simp [setKey, lookupKey]
  | cons p m ih =>
    obtain ⟨a, b⟩ := p
    by_cases h : a = k
    · simp [setKey, h, lookupKey]
    · simp [setKey, h, lookupKey, ih]

end Vault

namespace Vault

/-! Catalog data model, from src/app/src/vault/db/models.py. -/

/-- The ObjectStatus enum of models.py. -/
inductive ObjectStatus where
  | READY
  | UPDATING
  | DELETED
deriving DecidableEq, Repr

/-- A row of the objects table (models.Object). The autoincrement id and the
timestamps do not influence any claimed behaviour and are omitted. -/
structure ObjectRow where
  collection : String
  name : String
  object_key : String
  hash_sha256 : String
  size_bytes : Nat
  status : ObjectStatus
deriving DecidableEq, Repr

/-- A row of the collections table (models.Collection), without created_at. -/
structure CollectionRow where
  name : String
  api_key_hash : String
  is_active : Bool
deriving DecidableEq, Repr

end Vault

namespace Vault.ObjectRepository

/-! ObjectRepository, from src/app/src/vault/db/repository.py. -/

/-- ObjectRepository.list_ready_by_collection: rows of the collection in status
READY (the ORDER BY name only affects presentation order, not the row set). -/
def list_ready_by_collection (cat : List ObjectRow) (collection : String) :
    List ObjectRow :=
  cat.filter (fun r => r.collection == collection && r.status == ObjectStatus.READY)

/-- ObjectRepository.create_or_replace: delete every row with the same
object_key, then insert a fresh READY row. -/
def create_or_replace (cat : List ObjectRow) (collection name object_key : String)
    (hash_sha256 : String) (size_bytes : Nat) : List ObjectRow :=
  cat.filter (fun r => r.object_key != object_key) ++
    [{ collection := collection, name := name, object_key := object_key,
       hash_sha256 := hash_sha256, size_bytes := size_bytes,
       status := ObjectStatus.READY }]

/-- ObjectRepository.mark_deleted: flip status to DELETED on every row matching
(collection, name, READY); the Bool is `rowcount > 0`. -/
def mark_deleted (cat : List ObjectRow) (collection name : String) :
    List ObjectRow × Bool :=
  (cat.map (fun r =>
      if r.collection == collection && r.name == name && r.status == ObjectStatus.READY
      then { r with status := ObjectStatus.DELETED }
      else r),
   cat.any (fun r =>
      r.collection == collection && r.name == name && r.status == ObjectStatus.READY))

end Vault.ObjectRepository

namespace Vault.CollectionRepository

/-! CollectionRepository, from src/app/src/vault/db/repository.py.
hashFn stands for repository.hash_api_key (SHA-256 hex of the secret) and
genKey for the value produced by repository.generate_api_key. -/

/-- CollectionRepository.get_by_name (name is the primary key, so the SQL
scalar_one_or_none is a first-match lookup). -/
def get_by_name (cat : List CollectionRow) (name : String) : Option CollectionRow :=
  cat.find? (fun r => r.name == name)

/-- CollectionRepository.get_active_by_name: name match plus is_active. -/
def get_active_by_name (cat : List CollectionRow) (name : String) :
    Option CollectionRow :=
  cat.find? (fun r => r.name == name && r.is_active)

/-- CollectionRepository.get_or_create, exactly as its def line declares it:
one argument `name` beside self. Returns the new table, the row, and the
freshly generated api key (none when the collection already existed). -/
def get_or_create (hashFn : String → String) (genKey : String)
    (cat : List CollectionRow) (name : String) :
    List CollectionRow × CollectionRow × Option String :=
  match get_by_name cat name with
  | some existing => (cat, existing, none)
  | none =>
    let row : CollectionRow :=
      { name := name, api_key_hash := hashFn genKey, is_active := true }
    (cat ++ [row], row, some genKey)

/-- CollectionRepository.verify_api_key: false when no active row, else a hash
comparison. -/
def verify_api_key (hashFn : String → String) (cat : List CollectionRow)
    (name api_key : String) : Bool :=
  match get_active_by_name cat name with
  | none => false
  | some c => c.api_key_hash == hashFn api_key

end Vault.CollectionRepository

namespace Vault.Handler

/-! Filesystem event handler, from src/app/src/vault/watcher/handler.py. -/

open Vault.CollectionRepository

/-- The IGNORED_FILES constant of handler.py. -/
def IGNORED_FILES : List String := [(".vault_key"), (".DS_Store")]

/-- handler.should_ignore on the basename of a path. -/
def should_ignore (name : String) : Bool :=
  strStartsWith name (".") || IGNORED_FILES.contains name

/-- The DEBOUNCE_SECONDS constant (2.0 s). -/
def DEBOUNCE_SECONDS : ℚ := 2

/-- The PROCESSING_TIMEOUT constant (300.0 s). -/
def PROCESSING_TIMEOUT : ℚ := 300

/-- The module-level coordinator maps of handler.py: _files_in_progress maps
a path to the timestamp processing started, _last_event_time to the last
accepted event timestamp. -/
structure CoordState where
  files_in_progress : List (String × ℚ)
  last_event_time : List (String × ℚ)
deriving DecidableEq, Repr

/-- Outcome of the gate in handle_file_created_or_modified (lines 167-188). -/
inductive GateDecision where
  | dropInFlight
  | dropDebounce
  | accepted
deriving DecidableEq, Repr

/-- The debounce-window check and acceptance step of the gate: lines 179-188 of
handler.py, entered once the in-flight check has passed. -/
def gateDebounce (st : CoordState) (path : String) (now : ℚ) :
    GateDecision × CoordState :=
  match lookupKey st.last_event_time path with
  | some last_time =>
    if now - last_time < DEBOUNCE_SECONDS then (GateDecision.dropDebounce, st)
    else
      (GateDecision.accepted,
       { files_in_progress := setKey st.files_in_progress path now,
         last_event_time := setKey st.last_event_time path now })
  | none =>
    (GateDecision.accepted,
     { files_in_progress := setKey st.files_in_progress path now,
       last_event_time := setKey st.last_event_time path now })

/-- The full gate of handle_file_created_or_modified (lines 167-188): first the
in-flight check with stale-entry eviction, then the debounce check. -/
def gate (st : CoordState) (path : String) (now : ℚ) : GateDecision × CoordState :=
  match lookupKey st.files_in_progress path with
  | some started_at =>
    if now - started_at < PROCESSING_TIMEOUT then (GateDecision.dropInFlight, st)
    else
      gateDebounce
        { st with files_in_progress := eraseKey st.files_in_progress path } path now
  | none => gateDebounce st path now

/-- Whether the pipeline body (ensure collection, hash, upload, db commit)
succeeds or raises; the handler treats both alike in its finally block. -/
inductive PipelineOutcome where
  | success
  | failure
deriving DecidableEq, Repr

/-- handle_file_created_or_modified (lines 148-221). The pre-gate checks
(should_ignore, Path.is_file, parse_collection_path) are evaluated on the
values the filesystem and settings yield for this path, passed in as isFile
and parsed. Returns the new coordinator state and whether the pipeline ran.
On acceptance the pipeline body runs to its outcome (success, or an exception
absorbed by the except clause) and the finally block pops the path from
files_in_progress on both exits, so the resulting state does not depend on
the outcome. -/
def handle_file_created_or_modified (isFile : Bool)
    (parsed : Option (String × String)) (st : CoordState) (path : String)
    (now : ℚ) (outcome : PipelineOutcome) : CoordState × Bool :=
  if should_ignore (basename path) then (st, false)
  else if !isFile then (st, false)
  else
    match parsed with
    | none => (st, false)
    | some _ =>
      match gate st path now with
      | (GateDecision.accepted, st1) =>
        ({ st1 with files_in_progress := eraseKey st1.files_in_progress path },
         true)
      | (_, st1) => (st1, false)

/-- When does the gate drop an event for a fresh in-flight entry: the path is
in _files_in_progress and its processing started less than PROCESSING_TIMEOUT
ago. -/
def freshInFlight (st : CoordState) (path : String) (now : ℚ) : Bool :=
  match lookupKey st.files_in_progress path with
  | some started_at => decide (now - started_at < PROCESSING_TIMEOUT)
  | none => false

/-- When does the gate drop an event by debouncing: the last accepted event for
the path is less than DEBOUNCE_SECONDS old. -/
def freshLastEvent (st : CoordState) (path : String) (now : ℚ) : Bool :=
  match lookupKey st.last_event_time path with
  | some last_time => decide (now - last_time < DEBOUNCE_SECONDS)
  | none => false

end Vault.Handler

namespace Vault.Handler

/-! The ensure_collection_exists step (handler.py lines 103-126) and the Python
call-binding rule that decides whether its call into
CollectionRepository.get_or_create is legal. -/

open Vault.CollectionRepository

/-- A Python exception kind relevant here. -/
inductive PyError where
  | typeError
deriving DecidableEq, Repr

/-- The parameter list of CollectionRepository.get_or_create beside self, from
its def line in src/app/src/vault/db/repository.py: `async def
get_or_create(self, name)`. -/
def get_or_create_params : List String := [("name")]

/-- Python call binding for keyword arguments: a function that declares no
**kwargs raises TypeError when a keyword name is not among its declared
parameters. -/
def kwargs_accepted (params kwargs : List String) : Bool :=
  kwargs.all (fun k => params.contains k)

/-- ensure_collection_exists (handler.py lines 103-126). Inputs: the hash and
key-generation collaborators, the collections table, the collection name, and
the current content of `<collection>/.vault_key` (none when the file does not
exist). Output: the new table and the new key-file content, or the exception
the body raises. The body executes
`repo.get_or_create(collection_name, api_key=existing_key)`, so the keyword
binding against get_or_create_params is checked first; only if it binds does
the body of get_or_create run. -/
def ensure_collection_exists (hashFn : String → String) (genKey : String)
    (cat : List CollectionRow) (collection_name : String)
    (key_file : Option String) :
    Except PyError (List CollectionRow × Option String) :=
  let existing_key := key_file.map (fun s => s.trim)
  if kwargs_accepted get_or_create_params [("api_key")] then
    let res := get_or_create hashFn genKey cat collection_name
    match res.2.2, existing_key with
    | some api_key, none => Except.ok (res.1, some api_key)
    | _, _ => Except.ok (res.1, key_file)
  else
    Except.error PyError.typeError

end Vault.Handler

namespace Vault.Breaker

/-! Circuit breaker, from src/app/src/vault/minio_client/circuit_breaker.py.
The Python private attributes _state, _failure_count, _success_count,
_last_failure_time are the structure fields below without the underscore. -/

/-- The CircuitState enum. -/
inductive CircuitState where
  | CLOSED
  | OPEN
  | HALF_OPEN
deriving DecidableEq, Repr

/-- CircuitBreakerConfig. excluded_exceptions is handled at the call sites in
client.py (the S3Error NoSuchKey branch of delete_object below). -/
structure CircuitBreakerConfig where
  failure_threshold : Nat
  success_threshold : Nat
  timeout : ℚ
deriving DecidableEq, Repr

/-- The configuration of the global minio_circuit_breaker (and the dataclass
defaults): 5 failures, 2 successes, 30 s. -/
def defaultConfig : CircuitBreakerConfig :=
  { failure_threshold := 5, success_threshold := 2, timeout := 30 }

/-- The mutable attributes of a CircuitBreaker instance. -/
structure CircuitBreaker where
  state : CircuitState
  failure_count : Nat
  success_count : Nat
  last_failure_time : Option ℚ
deriving DecidableEq, Repr

/-- CircuitBreaker.__init__: CLOSED, zero counters, no failure stamp. -/
def mkBreaker : CircuitBreaker :=
  { state := CircuitState.CLOSED, failure_count := 0, success_count := 0,
    last_failure_time := none }

/-- CircuitBreaker._should_attempt_reset at wall-clock time now. -/
def should_attempt_reset (cfg : CircuitBreakerConfig) (b : CircuitBreaker)
    (now : ℚ) : Bool :=
  match b.last_failure_time with
  | none => true
  | some t => decide (cfg.timeout ≤ now - t)

/-- CircuitBreaker._transition_to: no-op when already in the target state;
entering CLOSED resets both counters, entering HALF_OPEN resets successes. -/
def transition_to (b : CircuitBreaker) (s : CircuitState) : CircuitBreaker :=
  if b.state = s then b
  else
    match s with
    | CircuitState.CLOSED =>
      { b with state := s, failure_count := 0, success_count := 0 }
    | CircuitState.HALF_OPEN => { b with state := s, success_count := 0 }
    | CircuitState.OPEN => { b with state := s }

/-- The state property: transitions OPEN to HALF_OPEN when the cooldown has
expired, then returns the (possibly updated) breaker and its state. -/
def state_property (cfg : CircuitBreakerConfig) (b : CircuitBreaker) (now : ℚ) :
    CircuitBreaker × CircuitState :=
  let b1 :=
    if b.state = CircuitState.OPEN then
      if should_attempt_reset cfg b now then transition_to b CircuitState.HALF_OPEN
      else b
    else b
  (b1, b1.state)

/-- CircuitBreaker.record_success. -/
def record_success (cfg : CircuitBreakerConfig) (b : CircuitBreaker) :
    CircuitBreaker :=
  if b.state = CircuitState.HALF_OPEN then
    let b1 := { b with success_count := b.success_count + 1 }
    if cfg.success_threshold ≤ b1.success_count then
      transition_to b1 CircuitState.CLOSED
    else b1
  else if b.state = CircuitState.CLOSED then { b with failure_count := 0 }
  else b

/-- CircuitBreaker.record_failure at wall-clock time now. -/
def record_failure (cfg : CircuitBreakerConfig) (b : CircuitBreaker) (now : ℚ) :
    CircuitBreaker :=
  let b1 := { b with failure_count := b.failure_count + 1,
                     last_failure_time := some now }
  if b1.state = CircuitState.HALF_OPEN then transition_to b1 CircuitState.OPEN
  else if b1.state = CircuitState.CLOSED then
    if cfg.failure_threshold ≤ b1.failure_count then
      transition_to b1 CircuitState.OPEN
    else b1
  else b1

/-- CircuitBreaker.check_state: reads the state property (which may transition
OPEN to HALF_OPEN); when the result is OPEN it raises CircuitBreakerError
carrying time_remaining, modelled as `some time_remaining`. The Python guard
`if self._last_failure_time:` is falsy both for None and for 0.0. -/
def check_state (cfg : CircuitBreakerConfig) (b : CircuitBreaker) (now : ℚ) :
    CircuitBreaker × Option ℚ :=
  let res := state_property cfg b now
  if res.2 = CircuitState.OPEN then
    let time_remaining :=
      match res.1.last_failure_time with
      | some t => if t = 0 then 0 else max 0 (cfg.timeout - (now - t))
      | none => 0
    (res.1, some time_remaining)
  else (res.1, none)

/-- Fold record_failure over a chronological list of failure times. -/
def applyFailures (cfg : CircuitBreakerConfig) (b : CircuitBreaker)
    (ts : List ℚ) : CircuitBreaker :=
  ts.foldl (fun acc t => record_failure cfg acc t) b

/-- Iterate record_success a given number of times. -/
def applySuccesses (cfg : CircuitBreakerConfig) : CircuitBreaker → Nat → CircuitBreaker
  | b, 0 => b
  | b, n + 1 => applySuccesses cfg (record_success cfg b) n

end Vault.Breaker

namespace Vault.Client

/-! delete_object, from src/app/src/vault/minio_client/client.py lines 104-138.
Metric updates (counters, latency histogram, breaker-state gauge) are recorded
by the separate metrics registry and do not feed back into control flow. -/

open Vault.Breaker

/-- Behaviour of the object store on a remove_object call. -/
inductive StoreResult where
  | ok
  | s3error (code : String)
  | otherError
deriving DecidableEq, Repr

/-- The exceptions delete_object can let escape. -/
inductive DeleteError where
  | circuitOpen (time_remaining : ℚ)
  | s3 (code : String)
  | other
deriving DecidableEq, Repr

/-- client.delete_object: first check_state (raising CircuitBreakerError when
open), then remove_object. An S3Error with code NoSuchKey returns false and is
not recorded as a failure; any other S3Error records a failure and re-raises;
a non-S3Error exception escapes the `except S3Error` clause unrecorded. -/
def delete_object (cfg : CircuitBreakerConfig) (b : CircuitBreaker) (now : ℚ)
    (store : StoreResult) : CircuitBreaker × Except DeleteError Bool :=
  match check_state cfg b now with
  | (b1, some tr) => (b1, Except.error (DeleteError.circuitOpen tr))
  | (b1, none) =>
    match store with
    | StoreResult.ok => (record_success cfg b1, Except.ok true)
    | StoreResult.s3error code =>
      if code = ("NoSuchKey") then (b1, Except.ok false)
      else (record_failure cfg b1 now, Except.error (DeleteError.s3 code))
    | StoreResult.otherError => (b1, Except.error DeleteError.other)

end Vault.Client

namespace Vault.Sync

/-! Sync barrier, from src/app/src/vault/sync/state.py. -/

open Vault.Handler

/-- The SyncState dataclass. pending_files is a set of names. -/
structure SyncState where
  collection : String
  is_synced : Bool
  files_in_folder : Nat
  files_in_db : Nat
  files_processing : Nat
  pending_files : Finset String

/-- A directory entry as seen by Path.iterdir. -/
structure DirEntry where
  name : String
  is_file : Bool
deriving DecidableEq, Repr

/-- state.get_folder_files: names of the regular, non-ignored entries of the
collection directory (empty when the directory is missing is subsumed by an
empty listing). -/
def get_folder_files (entries : List DirEntry) : Finset String :=
  ((entries.filter (fun e => e.is_file && !should_ignore e.name)).map
    (fun e => e.name)).toFinset

/-- state.get_processing_files_for_collection: basenames of the in-flight paths
under the collection directory, whose path string starts with the collection
prefix `<root>/<collection>/`. -/
def get_processing_files_for_collection (files_in_progress : List (String × ℚ))
    (collPre : String) : Finset String :=
  (((files_in_progress.map (fun p => p.1)).filter
      (fun s => strStartsWith s collPre)).map basename).toFinset

/-- The READY names of the catalog for a collection, as the set state.py builds
from ObjectRepository.list_ready_by_collection. -/
def db_ready_names (cat : List ObjectRow) (collection : String) : Finset String :=
  ((Vault.ObjectRepository.list_ready_by_collection cat collection).map
    (fun r => r.name)).toFinset

/-- state.get_sync_state (lines 84-130), applied to the three sets it gathers:
pending = folder minus db minus processing, and synced iff nothing is processing
and nothing is pending. -/
def get_sync_state (collection : String)
    (folder_files db_files processing_files : Finset String) : SyncState :=
  let pending_files := (folder_files \ db_files) \ processing_files
  let is_synced :=
    decide (processing_files.card = 0) && decide (pending_files.card = 0)
  { collection := collection, is_synced := is_synced,
    files_in_folder := folder_files.card, files_in_db := db_files.card,
    files_processing := processing_files.card, pending_files := pending_files }

end Vault.Sync

namespace Vault.Auth

/-! Auth rate limiter, from src/app/src/vault/api/auth.py. The per-key state is
kept in two dicts keyed by `ip:collection`; key here is that composed string. -/

/-- RateLimitConfig with its dataclass defaults 5 / 60 s / 300 s. -/
structure RateLimitConfig where
  max_failures : Nat
  window_seconds : ℚ
  block_seconds : ℚ
deriving DecidableEq, Repr

/-- The default RateLimitConfig used by the global _auth_rate_limiter. -/
def defaultRateLimit : RateLimitConfig :=
  { max_failures := 5, window_seconds := 60, block_seconds := 300 }

/-- AuthRateLimiter state: _failures (defaultdict of timestamp lists) and
_blocked_until. -/
structure AuthRateLimiter where
  failures : List (String × List ℚ)
  blocked_until : List (String × ℚ)
deriving DecidableEq, Repr

/-- AuthRateLimiter.__init__: empty maps. -/
def mkLimiter : AuthRateLimiter := { failures := [], blocked_until := [] }

/-- Reading self._failures[key] through the defaultdict: missing keys read
as the empty list. -/
def getFailures (L : AuthRateLimiter) (key : String) : List ℚ :=
  (lookupKey L.failures key).getD []

/-- AuthRateLimiter._cleanup_old_failures: keep timestamps strictly newer than
now minus the window. -/
def cleanup_old_failures (cfg : RateLimitConfig) (L : AuthRateLimiter)
    (key : String) (now : ℚ) : AuthRateLimiter :=
  let fs := (getFailures L key).filter (fun t => decide (now - cfg.window_seconds < t))
  { L with failures := setKey L.failures key fs }

/-- AuthRateLimiter.is_blocked: returns (blocked, seconds remaining) and the
limiter state (an expired block is deleted together with the failure list). -/
def is_blocked (L : AuthRateLimiter) (key : String) (now : ℚ) :
    (Bool × ℚ) × AuthRateLimiter :=
  match lookupKey L.blocked_until key with
  | some bu =>
    let remaining := bu - now
    if 0 < remaining then ((true, remaining), L)
    else
      ((false, 0),
       { failures := eraseKey L.failures key,
         blocked_until := eraseKey L.blocked_until key })
  | none => ((false, 0), L)

/-- AuthRateLimiter.record_failure: cleanup, append now, and block the key for
block_seconds when max_failures is reached; the Bool is whether the key is now
blocked. -/
def record_failure (cfg : RateLimitConfig) (L : AuthRateLimiter) (key : String)
    (now : ℚ) : AuthRateLimiter × Bool :=
  let L1 := cleanup_old_failures cfg L key now
  let fs := getFailures L1 key ++ [now]
  let L2 := { L1 with failures := setKey L1.failures key fs }
  if cfg.max_failures ≤ fs.length then
    ({ L2 with blocked_until := setKey L2.blocked_until key (now + cfg.block_seconds) },
     true)
  else (L2, false)

/-- AuthRateLimiter.record_success: clear both the failure list and the block. -/
def record_success (L : AuthRateLimiter) (key : String) : AuthRateLimiter :=
  { failures := eraseKey L.failures key,
    blocked_until := eraseKey L.blocked_until key }

/-- Outcome of verify_collection_key: HTTP 429 with its Retry-After integer
hint, HTTP 401, or the authorized collection name. -/
inductive AuthOutcome where
  | rateLimited (retry_after : ℤ)
  | unauthorized
  | ok
deriving DecidableEq, Repr

/-- api.auth.verify_collection_key (lines 134-179): rate-limit check first,
then the database verification (keyOk is its result for the presented key),
then success clearing or failure recording. int(x) of the nonnegative remaining
seconds is its floor. -/
def verify_collection_key (cfg : RateLimitConfig) (L : AuthRateLimiter)
    (key : String) (now : ℚ) (keyOk : Bool) : AuthRateLimiter × AuthOutcome :=
  let res := is_blocked L key now
  if res.1.1 then (res.2, AuthOutcome.rateLimited ⌊res.1.2⌋)
  else if keyOk then (record_success res.2 key, AuthOutcome.ok)
  else
    let res2 := record_failure cfg res.2 key now
    if res2.2 then (res2.1, AuthOutcome.rateLimited ⌊cfg.block_seconds⌋)
    else (res2.1, AuthOutcome.unauthorized)

/-- Fold verify_collection_key with a wrong key over a chronological list of
attempt times. -/
def applyFailedVerifies (cfg : RateLimitConfig) (L : AuthRateLimiter)
    (key : String) (ts : List ℚ) : AuthRateLimiter :=
  ts.foldl (fun acc t => (verify_collection_key cfg acc key t false).1) L

end Vault.Auth

namespace Vault.Metrics

/-! Counter, from src/app/src/vault/monitoring/metrics.py. Python float
arithmetic on the counter value is modelled over the rationals. -/

/-- The Counter dataclass: name, description and the running _value. -/
structure Counter where
  name : String
  description : String
  value : ℚ
deriving DecidableEq, Repr

/-- Counter.inc(value): adds the delta, with no sign restriction in the code. -/
def Counter.inc (c : Counter) (value : ℚ) : Counter :=
  { c with value := c.value + value }

/-- Counter.get: the current value. -/
def Counter.get (c : Counter) : ℚ := c.value

/-- Apply a sequence of inc calls in order. -/
def applyIncs (c : Counter) (ds : List ℚ) : Counter :=
  ds.foldl Counter.inc c

end Vault.Metrics

namespace Vault

open Vault.CollectionRepository Vault.ObjectRepository Vault.Handler

/-- Difference-difference emptiness as a union bound, for finsets of names. -/
theorem sdiff_subset_union_iff {α : Type} [DecidableEq α] (a b c : Finset α) :
    a \ b ⊆ c ↔ a ⊆ b ∪ c := by
  constructor
  · intro h x hx
    by_cases hb : x ∈ b
    · exact Finset.mem_union_left c hb
    · exact Finset.mem_union_right b (h (Finset.mem_sdiff.mpr ⟨hx, hb⟩))
  · intro h x hx
    rcases Finset.mem_sdiff.mp hx with ⟨hxa, hxb⟩
    rcases Finset.mem_union.mp (h hxa) with h1 | h1
    · exact absurd h1 hxb
    · exact h1

/-- C1: the claim says the ensure-collection step of the ingestion worker
succeeds and in particular that the handler's call into the repository's
get_or_create with the keyword argument api_key completes without error. It
does not: CollectionRepository.get_or_create declares only the parameter name,
so the keyword call `repo.get_or_create(collection_name, api_key=existing_key)`
in ensure_collection_exists raises TypeError for every input, with or without a
pre-existing .vault_key file. -/
theorem C1_ensure_collection_always_raises (hashFn : String → String)
    (genKey : String) (cat : List CollectionRow) (collection_name : String)
    (key_file : Option String) :
    ensure_collection_exists hashFn genKey cat collection_name key_file
      = Except.error PyError.typeError := rfl

/-- A DELETED tombstone row used as the concrete catalog state for C2. -/
def tombRow : ObjectRow :=
  { collection := ("c"), name := ("n"), object_key := ("c/n"),
    hash_sha256 := ("h"), size_bytes := 1, status := ObjectStatus.DELETED }

/-- C2 counterexample: in the catalog holding only the DELETED tombstone for
object_key c/n, create_or_replace for that same object_key removes the
tombstone row from the catalog, so it is no longer queryable. -/
theorem C2_counterexample_tombstone_purged :
    tombRow ∈ [tombRow] ∧ tombRow.status = ObjectStatus.DELETED ∧
    tombRow ∉ create_or_replace [tombRow] ("c") ("n") ("c/n") ("h2") 2 := by
  decide

/-- C2 amended: a DELETED tombstone row survives every mark_deleted call, and
survives create_or_replace except when the replacement re-ingests the
tombstone's own object_key (in which case the row is removed and replaced by
the fresh READY row). -/
theorem C2_amended_tombstone_retention (cat : List ObjectRow) (r : ObjectRow)
    (c n k h : String) (s : Nat) (hr : r ∈ cat)
    (hd : r.status = ObjectStatus.DELETED) :
    r ∈ (mark_deleted cat c n).1 ∧
    (r.object_key ≠ k → r ∈ create_or_replace cat c n k h s) := by
  constructor
  · have hfix :
        (if r.collection == c && r.name == n && r.status == ObjectStatus.READY
         then { r with status := ObjectStatus.DELETED } else r) = r := by
      simp [hd]
    have hmem :
        (if r.collection == c && r.name == n && r.status == ObjectStatus.READY
         then { r with status := ObjectStatus.DELETED } else r)
          ∈ (mark_deleted cat c n).1 :=
      List.mem_map_of_mem _ hr
    rwa [hfix] at hmem
  · intro hk
    refine List.mem_append_left _ (List.mem_filter.mpr ⟨hr, ?_⟩)
    simpa using hk

/-- C2 amended, witnessed on the concrete tombstone catalog with a different
replacement key. -/
theorem C2_amended_witness :
    tombRow ∈ [tombRow] ∧ tombRow.status = ObjectStatus.DELETED ∧
    (tombRow ∈ (mark_deleted [tombRow] ("c") ("n")).1 ∧
     (tombRow.object_key ≠ ("c/m") →
       tombRow ∈ create_or_replace [tombRow] ("c") ("m") ("c/m") ("h2") 2)) :=
  ⟨by decide, by decide,
   C2_amended_tombstone_retention [tombRow] tombRow ("c") ("m") ("c/m") ("h2") 2
     (by decide) (by decide)⟩

/-- C10: verify_api_key fails closed. Whenever every collection row carrying
the requested name is deactivated (in particular when no row carries it at
all), verification returns false without raising, for every presented secret
and every hash function, so in particular regardless of whether the presented
secret hashes to the stored hash. -/
theorem C10_verify_api_key_fails_closed (hashFn : String → String)
    (cat : List CollectionRow) (name secret : String)
    (h : ∀ r ∈ cat, r.name = name → r.is_active = false) :
    verify_api_key hashFn cat name secret = false := by
  have hnone : get_active_by_name cat name = none := by
    refine List.find?_eq_none.mpr (fun r hr => ?_)
    intro hcontra
    simp only [Bool.and_eq_true, beq_iff_eq] at hcontra
    rcases hcontra with ⟨h1, h2⟩
    rw [h r hr h1] at h2
    exact Bool.false_ne_true h2
  simp [verify_api_key, hnone]

/-- A deactivated collection row whose stored hash would match the presented
secret under the identity hash function. -/
def inactiveRow : CollectionRow :=
  { name := ("alpha"), api_key_hash := ("s3cret"), is_active := false }

/-- C10 witnessed on a catalog whose only row for the name is deactivated and
whose hash would match the presented secret. -/
theorem C10_witness :
    (∀ r ∈ [inactiveRow], r.name = ("alpha") → r.is_active = false) ∧
    verify_api_key (fun s => s) [inactiveRow] ("alpha") ("s3cret") = false :=
  ⟨by decide,
   C10_verify_api_key_fails_closed (fun s => s) [inactiveRow] ("alpha") ("s3cret")
     (by decide)⟩

/-- C4: the sync-barrier predicate. get_sync_state reports is_synced exactly
when nothing is processing and folder minus db minus processing is empty, and
equivalently exactly when the folder files are covered by db plus processing
and nothing is processing. -/
theorem C4_sync_barrier_predicate (c : String)
    (folder db processing : Finset String) :
    ((Sync.get_sync_state c folder db processing).is_synced = true ↔
      processing = ∅ ∧ (folder \ db) \ processing = ∅) ∧
    ((Sync.get_sync_state c folder db processing).is_synced = true ↔
      folder ⊆ db ∪ processing ∧ processing = ∅) := by
  have hsd : ((folder \ db) \ processing = ∅) ↔ folder ⊆ db ∪ processing := by
    rw [Finset.sdiff_eq_empty_iff_subset]
    exact sdiff_subset_union_iff folder db processing
  constructor
  · simp [Sync.get_sync_state, Finset.card_eq_zero, and_comm]
  · simp [Sync.get_sync_state, Finset.card_eq_zero, hsd, and_comm]

end Vault

namespace Vault.Metrics

/-- A concrete Counter at its initial value 0.0. -/
def demoCounter : Counter :=
  { name := ("vault_files_processed"), description := ("d"), value := 0 }

/-- C9 counterexample: the code places no sign restriction on inc's delta, so
the one-call sequence inc(-1) strictly decreases get(); a Counter can go
down. -/
theorem C9_counterexample_negative_inc :
    ((applyIncs demoCounter [-1]).get < demoCounter.get) := by
  norm_num [applyIncs, demoCounter, Counter.inc, Counter.get]

/-- C9 amended: over any sequence of inc calls whose deltas are all
nonnegative, the value returned by get is nondecreasing. -/
theorem C9_amended_counter_monotone (c : Counter) (ds : List ℚ)
    (h : ∀ d ∈ ds, 0 ≤ d) : c.get ≤ (applyIncs c ds).get := by
  induction ds generalizing c with
  | nil => simp [applyIncs]
  | cons d ds ih =>
    have h0 : 0 ≤ d := h d (List.mem_cons_self d ds)
    have h1 : c.get ≤ (c.inc d).get := by
      simp only [Counter.inc, Counter.get]
      linarith
    have h2 : (c.inc d).get ≤ (applyIncs (c.inc d) ds).get :=
      ih (c.inc d) (fun x hx => h x (List.mem_cons_of_mem d hx))
    calc c.get ≤ (c.inc d).get := h1
    _ ≤ (applyIncs (c.inc d) ds).get := h2
    _ = (applyIncs c (d :: ds)).get := by simp [applyIncs]

/-- C9 amended, witnessed on the concrete counter and the deltas 1 and 2. -/
theorem C9_amended_witness :
    (∀ d ∈ [(1 : ℚ), 2], 0 ≤ d) ∧
    demoCounter.get ≤ (applyIncs demoCounter [(1 : ℚ), 2]).get :=
  ⟨by norm_num, C9_amended_counter_monotone demoCounter [(1 : ℚ), 2] (by norm_num)⟩

end Vault.Metrics

namespace Vault.Handler

/-- The debounce step accepts exactly when the path has no fresh last event. -/
theorem gateDebounce_accepted_iff (st : CoordState) (path : String) (now : ℚ) :
    (gateDebounce st path now).1 = GateDecision.accepted ↔
      freshLastEvent st path now = false := by
  unfold gateDebounce freshLastEvent
  cases hl : lookupKey st.last_event_time path with
  | none => simp
  | some l =>
    by_cases hd : now - l < DEBOUNCE_SECONDS
    · simp [hd]
    · simp [hd]

/-- The gate accepts exactly when the path has neither a fresh in-flight entry
nor a fresh last event. -/
theorem gate_accepted_iff (st : CoordState) (path : String) (now : ℚ) :
    (gate st path now).1 = GateDecision.accepted ↔
      freshInFlight st path now = false ∧ freshLastEvent st path now = false := by
  unfold gate freshInFlight
  cases hf : lookupKey st.files_in_progress path with
  | none => simp [gateDebounce_accepted_iff]
  | some s =>
    by_cases ht : now - s < PROCESSING_TIMEOUT
    · simp [ht]
    · simp only [ht, if_false]
      rw [gateDebounce_accepted_iff]
      simp [freshLastEvent, ht]

/-- When the handler reports that the pipeline ran, every pre-gate check
passed, the gate accepted, and the final state is the accepted gate state with
the path released from files_in_progress. -/
theorem handle_executed_parts (isFile : Bool) (parsed : Option (String × String))
    (st : CoordState) (path : String) (now : ℚ) (outcome : PipelineOutcome)
    (hexec : (handle_file_created_or_modified isFile parsed st path now outcome).2
      = true) :
    should_ignore (basename path) = false ∧ isFile = true ∧
    parsed.isSome = true ∧
    (gate st path now).1 = GateDecision.accepted ∧
    (handle_file_created_or_modified isFile parsed st path now outcome).1
      = { (gate st path now).2 with
          files_in_progress :=
            eraseKey (gate st path now).2.files_in_progress path } := by
  unfold handle_file_created_or_modified at hexec ⊢
  by_cases h1 : should_ignore (basename path)
  · simp [h1] at hexec
  · cases isFile with
    | false => simp [h1] at hexec
    | true =>
      cases parsed with
      | none => simp [h1] at hexec
      | some pr =>
        rcases hg : gate st path now with ⟨dec, st1⟩
        cases dec with
        | dropInFlight => simp [h1, hg] at hexec
        | dropDebounce => simp [h1, hg] at hexec
        | accepted => simp [h1, hg]

/-- When the gate does not accept, the handler does not run the pipeline. -/
theorem handle_not_executed_of_gate (isFile : Bool)
    (parsed : Option (String × String)) (st : CoordState) (path : String)
    (now : ℚ) (outcome : PipelineOutcome)
    (h : (gate st path now).1 ≠ GateDecision.accepted) :
    (handle_file_created_or_modified isFile parsed st path now outcome).2
      = false := by
  unfold handle_file_created_or_modified
  by_cases h1 : should_ignore (basename path)
  · simp [h1]
  · cases isFile with
    | false => simp [h1]
    | true =>
      cases parsed with
      | none => simp [h1]
      | some pr =>
        rcases hg : gate st path now with ⟨dec, st1⟩
        cases dec with
        | dropInFlight => simp [h1, hg]
        | dropDebounce => simp [h1, hg]
        | accepted => rw [hg] at h; simp at h

end Vault.Handler

namespace Vault

open Vault.Handler

/-- C8: release-in-flight on every exit path. Whenever the handler admits a
path and runs the pipeline, whatever the pipeline's outcome (all steps succeed
or any of them raises), the resulting coordinator state no longer holds the
path in files_in_progress. -/
theorem C8_release_in_flight_on_exit (isFile : Bool)
    (parsed : Option (String × String)) (st : CoordState) (path : String)
    (now : ℚ) (outcome : PipelineOutcome)
    (hexec : (handle_file_created_or_modified isFile parsed st path now outcome).2
      = true) :
    lookupKey
      (handle_file_created_or_modified isFile parsed st path now outcome).1.files_in_progress
      path = none := by
  obtain ⟨-, -, -, -, hstate⟩ :=
    handle_executed_parts isFile parsed st path now outcome hexec
  rw [hstate]
  exact lookupKey_eraseKey _ _

end Vault

namespace Vault.Handler

/-- gate reduces to the debounce step when the path has no in-flight entry. -/
theorem gate_eq_inflight_none (st : CoordState) (path : String) (now : ℚ)
    (hf : lookupKey st.files_in_progress path = none) :
    gate st path now = gateDebounce st path now := by
  unfold gate
  rw [hf]

/-- gate drops an event whose path has a fresh in-flight entry. -/
theorem gate_eq_inflight_fresh (st : CoordState) (path : String) (now s : ℚ)
    (hf : lookupKey st.files_in_progress path = some s)
    (ht : now - s < PROCESSING_TIMEOUT) :
    gate st path now = (GateDecision.dropInFlight, st) := by
  unfold gate
  rw [hf]
  exact if_pos ht

/-- gate evicts a stale in-flight entry and proceeds to the debounce step. -/
theorem gate_eq_inflight_stale (st : CoordState) (path : String) (now s : ℚ)
    (hf : lookupKey st.files_in_progress path = some s)
    (ht : ¬(now - s < PROCESSING_TIMEOUT)) :
    gate st path now
      = gateDebounce
          { st with files_in_progress := eraseKey st.files_in_progress path }
          path now := by
  unfold gate
  rw [hf]
  exact if_neg ht

/-- The debounce step accepts a path with no recorded last event. -/
theorem gateDebounce_eq_none (st : CoordState) (path : String) (now : ℚ)
    (hl : lookupKey st.last_event_time path = none) :
    gateDebounce st path now
      = (GateDecision.accepted,
         { files_in_progress := setKey st.files_in_progress path now,
           last_event_time := setKey st.last_event_time path now }) := by
  unfold gateDebounce
  rw [hl]

/-- The debounce step drops a path whose last accepted event is fresh. -/
theorem gateDebounce_eq_fresh (st : CoordState) (path : String) (now l : ℚ)
    (hl : lookupKey st.last_event_time path = some l)
    (hd : now - l < DEBOUNCE_SECONDS) :
    gateDebounce st path now = (GateDecision.dropDebounce, st) := by
  unfold gateDebounce
  rw [hl]
  exact if_pos hd

/-- The debounce step accepts a path whose last accepted event is old. -/
theorem gateDebounce_eq_stale (st : CoordState) (path : String) (now l : ℚ)
    (hl : lookupKey st.last_event_time path = some l)
    (hd : ¬(now - l < DEBOUNCE_SECONDS)) :
    gateDebounce st path now
      = (GateDecision.accepted,
         { files_in_progress := setKey st.files_in_progress path now,
           last_event_time := setKey st.last_event_time path now }) := by
  unfold gateDebounce
  rw [hl]
  exact if_neg hd

/-- On acceptance the gate stamps both coordinator maps with now, and the
last-event map is exactly the old one updated at the path. -/
theorem gate_accepted_maps (st : CoordState) (path : String) (now : ℚ)
    (h : (gate st path now).1 = GateDecision.accepted) :
    lookupKey (gate st path now).2.files_in_progress path = some now ∧
    lookupKey (gate st path now).2.last_event_time path = some now ∧
    (gate st path now).2.last_event_time
      = setKey st.last_event_time path now := by
  cases hf : lookupKey st.files_in_progress path with
  | none =>
    rw [gate_eq_inflight_none st path now hf] at h ⊢
    cases hl : lookupKey st.last_event_time path with
    | none =>
      rw [gateDebounce_eq_none st path now hl]
      exact ⟨lookupKey_setKey_self _ _ _, lookupKey_setKey_self _ _ _, rfl⟩
    | some l =>
      by_cases hd : now - l < DEBOUNCE_SECONDS
      · rw [gateDebounce_eq_fresh st path now l hl hd] at h
        simp at h
      · rw [gateDebounce_eq_stale st path now l hl hd]
        exact ⟨lookupKey_setKey_self _ _ _, lookupKey_setKey_self _ _ _, rfl⟩
  | some s =>
    by_cases ht : now - s < PROCESSING_TIMEOUT
    · rw [gate_eq_inflight_fresh st path now s hf ht] at h
      simp at h
    · rw [gate_eq_inflight_stale st path now s hf ht] at h ⊢
      cases hl : lookupKey st.last_event_time path with
      | none =>
        rw [gateDebounce_eq_none
          { st with files_in_progress := eraseKey st.files_in_progress path }
          path now hl]
        exact ⟨lookupKey_setKey_self _ _ _, lookupKey_setKey_self _ _ _, rfl⟩
      | some l =>
        by_cases hd : now - l < DEBOUNCE_SECONDS
        · rw [gateDebounce_eq_fresh
            { st with files_in_progress := eraseKey st.files_in_progress path }
            path now l hl hd] at h
          simp at h
        · rw [gateDebounce_eq_stale
            { st with files_in_progress := eraseKey st.files_in_progress path }
            path now l hl hd]
          exact ⟨lookupKey_setKey_self _ _ _, lookupKey_setKey_self _ _ _, rfl⟩

end Vault.Handler

namespace Vault

open Vault.Handler

/-- C8 witnessed: an admitted path in a fresh coordinator state, with a failing
pipeline, ends with the path absent from files_in_progress. -/
theorem C8_witness :
    ((handle_file_created_or_modified true (some (("alpha"), ("a.txt")))
        (CoordState.mk [] []) ("/data/collections/alpha/a.txt") 10
        PipelineOutcome.failure).2 = true) ∧
    lookupKey
      (handle_file_created_or_modified true (some (("alpha"), ("a.txt")))
        (CoordState.mk [] []) ("/data/collections/alpha/a.txt") 10
        PipelineOutcome.failure).1.files_in_progress
      ("/data/collections/alpha/a.txt") = none :=
  ⟨by decide,
   C8_release_in_flight_on_exit true (some (("alpha"), ("a.txt")))
     (CoordState.mk [] []) ("/data/collections/alpha/a.txt") 10
     PipelineOutcome.failure (by decide)⟩

end Vault

namespace Vault

open Vault.Handler

/-- C5: the gate decision for a single path. An event is dropped when the path
has a fresh in-flight entry or a fresh last accepted event, and otherwise both
coordinator maps are stamped with now and the pipeline runs; consequently, when
an event at t0 is admitted and a second create/modify event for the same path
arrives at t1 within the debounce window, the second event is dropped whether
the first pipeline has already completed (releasing the in-flight slot) or is
still running, so exactly one pipeline execution results. -/
theorem C5_debounce_single_execution (isFile : Bool)
    (parsed : Option (String × String)) (st : CoordState) (path : String)
    (t0 t1 : ℚ) (o1 o2 : PipelineOutcome)
    (hexec : (handle_file_created_or_modified isFile parsed st path t0 o1).2
      = true)
    (hle : t0 ≤ t1) (hwin : t1 - t0 < DEBOUNCE_SECONDS) :
    (∀ st2 : CoordState, ∀ now : ℚ,
      ((gate st2 path now).1 = GateDecision.accepted ↔
        freshInFlight st2 path now = false ∧
        freshLastEvent st2 path now = false) ∧
      ((gate st2 path now).1 = GateDecision.accepted →
        lookupKey (gate st2 path now).2.files_in_progress path = some now ∧
        lookupKey (gate st2 path now).2.last_event_time path = some now)) ∧
    (handle_file_created_or_modified isFile parsed
      ((handle_file_created_or_modified isFile parsed st path t0 o1).1)
      path t1 o2).2 = false ∧
    (handle_file_created_or_modified isFile parsed
      ((gate st path t0).2) path t1 o2).2 = false := by
  obtain ⟨-, -, -, hacc, hstate⟩ :=
    handle_executed_parts isFile parsed st path t0 o1 hexec
  obtain ⟨hfip, hlet, -⟩ := gate_accepted_maps st path t0 hacc
  have hDP : DEBOUNCE_SECONDS < PROCESSING_TIMEOUT := by
    norm_num [DEBOUNCE_SECONDS, PROCESSING_TIMEOUT]
  refine ⟨?_, ?_, ?_⟩
  · intro st2 now
    exact ⟨gate_accepted_iff st2 path now,
      fun h => ⟨(gate_accepted_maps st2 path now h).1,
        (gate_accepted_maps st2 path now h).2.1⟩⟩
  · apply handle_not_executed_of_gate
    intro hco
    have hfle : freshLastEvent
        (handle_file_created_or_modified isFile parsed st path t0 o1).1 path t1
        = true := by
      unfold freshLastEvent
      rw [hstate]
      have :
          lookupKey
            ({ (gate st path t0).2 with
               files_in_progress :=
                 eraseKey (gate st path t0).2.files_in_progress path
             } : CoordState).last_event_time path = some t0 := hlet
      rw [this]
      exact decide_eq_true hwin
    rw [gate_accepted_iff] at hco
    rw [hco.2] at hfle
    exact Bool.false_ne_true hfle
  · apply handle_not_executed_of_gate
    intro hco
    have hfif : freshInFlight (gate st path t0).2 path t1 = true := by
      unfold freshInFlight
      rw [hfip]
      exact decide_eq_true (lt_trans hwin hDP)
    rw [gate_accepted_iff] at hco
    rw [hco.1] at hfif
    exact Bool.false_ne_true hfif

/-- C5 witnessed: an admitted event at time 10 on a fresh coordinator state and
a second event at time 11 for the same path. -/
theorem C5_witness :
    ((handle_file_created_or_modified true (some (("alpha"), ("b.txt")))
        (CoordState.mk [] []) ("/data/collections/alpha/b.txt") 10
        PipelineOutcome.success).2 = true) ∧
    ((10 : ℚ) ≤ 11) ∧ ((11 : ℚ) - 10 < DEBOUNCE_SECONDS) ∧
    ((∀ st2 : CoordState, ∀ now : ℚ,
      ((gate st2 ("/data/collections/alpha/b.txt") now).1
          = GateDecision.accepted ↔
        freshInFlight st2 ("/data/collections/alpha/b.txt") now = false ∧
        freshLastEvent st2 ("/data/collections/alpha/b.txt") now = false) ∧
      ((gate st2 ("/data/collections/alpha/b.txt") now).1
          = GateDecision.accepted →
        lookupKey (gate st2 ("/data/collections/alpha/b.txt") now).2.files_in_progress
          ("/data/collections/alpha/b.txt") = some now ∧
        lookupKey (gate st2 ("/data/collections/alpha/b.txt") now).2.last_event_time
          ("/data/collections/alpha/b.txt") = some now)) ∧
    (handle_file_created_or_modified true (some (("alpha"), ("b.txt")))
      ((handle_file_created_or_modified true (some (("alpha"), ("b.txt")))
        (CoordState.mk [] []) ("/data/collections/alpha/b.txt") 10
        PipelineOutcome.success).1)
      ("/data/collections/alpha/b.txt") 11 PipelineOutcome.success).2 = false ∧
    (handle_file_created_or_modified true (some (("alpha"), ("b.txt")))
      ((gate (CoordState.mk [] []) ("/data/collections/alpha/b.txt") 10).2)
      ("/data/collections/alpha/b.txt") 11 PipelineOutcome.success).2 = false) :=
  ⟨by decide, by norm_num, by norm_num [DEBOUNCE_SECONDS],
   C5_debounce_single_execution true (some (("alpha"), ("b.txt")))
     (CoordState.mk [] []) ("/data/collections/alpha/b.txt") 10 11
     PipelineOutcome.success PipelineOutcome.success (by decide)
     (by norm_num) (by norm_num [DEBOUNCE_SECONDS])⟩

end Vault

namespace Vault.Breaker

/-- A rejection by check_state leaves the breaker exactly as it was. -/
theorem check_state_rejects_unchanged (cfg : CircuitBreakerConfig)
    (b : CircuitBreaker) (now : ℚ)
    (h : (check_state cfg b now).2.isSome = true) :
    (check_state cfg b now).1 = b := by
  unfold check_state state_property at h ⊢
  by_cases hs : b.state = CircuitState.OPEN
  · by_cases hr : should_attempt_reset cfg b now = true
    · have htrans : (transition_to b CircuitState.HALF_OPEN).state
          = CircuitState.HALF_OPEN := by
        unfold transition_to
        simp [hs]
      simp [hs, hr, htrans] at h
    · simp [hs, hr]
  · simp [hs] at h

/-- check_state never changes the failure counter (the OPEN to HALF_OPEN
transition only resets successes). -/
theorem check_state_preserves_failure_count (cfg : CircuitBreakerConfig)
    (b : CircuitBreaker) (now : ℚ) :
    (check_state cfg b now).1.failure_count = b.failure_count := by
  unfold check_state state_property transition_to
  by_cases hs : b.state = CircuitState.OPEN
  · by_cases hr : should_attempt_reset cfg b now = true
    · simp [hs, hr]
    · simp [hs, hr]
  · simp [hs]

end Vault.Breaker

namespace Vault

open Vault.Breaker Vault.Client

/-- C7: only genuine store failures advance the breaker. A rejection raised by
the open breaker leaves the breaker (in particular its failure counter and
state) unchanged; and delete_object maps an object-not-found into the return
value false instead of raising, without recording a breaker failure, so the
failure counter is unchanged by a delete of an already-absent key on every
path. -/
theorem C7_rejection_and_absent_delete (cfg : CircuitBreakerConfig)
    (b : CircuitBreaker) (now : ℚ) :
    ((check_state cfg b now).2.isSome = true → (check_state cfg b now).1 = b) ∧
    ((check_state cfg b now).2 = none →
      delete_object cfg b now (StoreResult.s3error ("NoSuchKey"))
        = ((check_state cfg b now).1, Except.ok false)) ∧
    (delete_object cfg b now (StoreResult.s3error ("NoSuchKey"))).1.failure_count
      = b.failure_count := by
  refine ⟨check_state_rejects_unchanged cfg b now, ?_, ?_⟩
  · intro hnone
    unfold delete_object
    rcases hcs : check_state cfg b now with ⟨b1, r⟩
    rw [hcs] at hnone
    simp only at hnone
    subst hnone
    simp
  · have hfc := check_state_preserves_failure_count cfg b now
    unfold delete_object
    rcases hcs : check_state cfg b now with ⟨b1, r⟩
    rw [hcs] at hfc
    cases r with
    | none => simpa using hfc
    | some tr => simpa using hfc

/-- C7 witnessed on the default configuration and a fresh breaker. -/
theorem C7_witness :
    ((Breaker.check_state defaultConfig mkBreaker 0).2.isSome = true →
      (Breaker.check_state defaultConfig mkBreaker 0).1 = mkBreaker) ∧
    ((Breaker.check_state defaultConfig mkBreaker 0).2 = none →
      delete_object defaultConfig mkBreaker 0 (StoreResult.s3error ("NoSuchKey"))
        = ((Breaker.check_state defaultConfig mkBreaker 0).1, Except.ok false)) ∧
    (delete_object defaultConfig mkBreaker 0
        (StoreResult.s3error ("NoSuchKey"))).1.failure_count
      = mkBreaker.failure_count :=
  C7_rejection_and_absent_delete defaultConfig mkBreaker 0

end Vault

namespace Vault.Breaker

/-- From CLOSED, recording failures keeps the breaker CLOSED and counts them
until the failure threshold is hit at the last recorded failure, which opens
the breaker and stamps its time. -/
theorem applyFailures_opens (cfg : CircuitBreakerConfig) :
    ∀ (ts : List ℚ) (tN : ℚ) (b : CircuitBreaker),
      b.state = CircuitState.CLOSED →
      b.failure_count + ts.length + 1 = cfg.failure_threshold →
      (applyFailures cfg b (ts ++ [tN])).state = CircuitState.OPEN ∧
      (applyFailures cfg b (ts ++ [tN])).last_failure_time = some tN ∧
      (applyFailures cfg b (ts ++ [tN])).failure_count
        = cfg.failure_threshold := by
  intro ts
  induction ts with
  | nil =>
    intro tN b hs hc
    have hstep : applyFailures cfg b ([] ++ [tN]) = record_failure cfg b tN := rfl
    rw [hstep]
    unfold record_failure transition_to
    have hle : cfg.failure_threshold ≤ b.failure_count + 1 := by
      simp only [List.length_nil] at hc
      omega
    simp only [List.length_nil] at hc
    simp [hs, hle]
    omega
  | cons t ts ih =>
    intro tN b hs hc
    have hstep : applyFailures cfg b ((t :: ts) ++ [tN])
        = applyFailures cfg (record_failure cfg b t) (ts ++ [tN]) := rfl
    rw [hstep]
    simp only [List.length_cons] at hc
    have hlt : ¬(cfg.failure_threshold ≤ b.failure_count + 1) := by omega
    have h1 : (record_failure cfg b t).state = CircuitState.CLOSED ∧
        (record_failure cfg b t).failure_count = b.failure_count + 1 := by
      unfold record_failure transition_to
      simp [hs, hlt]
    refine ih tN (record_failure cfg b t) h1.1 ?_
    rw [h1.2]
    omega

/-- From HALF_OPEN, recording enough successes to meet the success threshold
restores CLOSED and resets the failure counter. -/
theorem applySuccesses_closes (cfg : CircuitBreakerConfig) :
    ∀ (k : Nat) (b : CircuitBreaker),
      b.state = CircuitState.HALF_OPEN →
      b.success_count + k = cfg.success_threshold → 0 < k →
      (applySuccesses cfg b k).state = CircuitState.CLOSED ∧
      (applySuccesses cfg b k).failure_count = 0 := by
  intro k
  induction k with
  | zero =>
    intro b _ _ h0
    exact absurd h0 (Nat.lt_irrefl 0)
  | succ k ih =>
    intro b hs hc _
    have hstep : applySuccesses cfg b (k + 1)
        = applySuccesses cfg (record_success cfg b) k := rfl
    rw [hstep]
    by_cases hk : k = 0
    · subst hk
      have hle : cfg.success_threshold ≤ b.success_count + 1 := by omega
      have h1 : (record_success cfg b).state = CircuitState.CLOSED ∧
          (record_success cfg b).failure_count = 0 := by
        unfold record_success transition_to
        simp [hs, hle]
      exact h1
    · have hlt : ¬(cfg.success_threshold ≤ b.success_count + 1) := by omega
      have h1 : (record_success cfg b).state = CircuitState.HALF_OPEN ∧
          (record_success cfg b).success_count = b.success_count + 1 := by
        unfold record_success
        simp [hs, hlt]
      refine ih (record_success cfg b) h1.1 ?_ (by omega)
      rw [h1.2]
      omega

end Vault.Breaker

namespace Vault

open Vault.Breaker

/-- C3: the circuit breaker state machine. From a fresh CLOSED breaker,
failure_threshold consecutive recorded failures leave it OPEN with the last
failure stamped; while OPEN within the cooldown, check_state raises the
CircuitOpen rejection and leaves the breaker untouched; once the cooldown has
elapsed, the next check_state transitions to HALF_OPEN and is allowed through;
from HALF_OPEN with a clean success counter, success_threshold consecutive
recorded successes restore CLOSED with the failure counter reset; and any
single failure in HALF_OPEN returns to OPEN and restamps the failure time. -/
theorem C3_circuit_breaker_state_machine (cfg : CircuitBreakerConfig)
    (hS : 0 < cfg.success_threshold) (ts : List ℚ) (tN : ℚ)
    (hlen : ts.length + 1 = cfg.failure_threshold) :
    ((applyFailures cfg mkBreaker (ts ++ [tN])).state = CircuitState.OPEN ∧
     (applyFailures cfg mkBreaker (ts ++ [tN])).last_failure_time = some tN) ∧
    (∀ b : CircuitBreaker, ∀ now t : ℚ,
      b.state = CircuitState.OPEN → b.last_failure_time = some t →
      now - t < cfg.timeout →
      (check_state cfg b now).1 = b ∧
      (check_state cfg b now).2.isSome = true) ∧
    (∀ b : CircuitBreaker, ∀ now t : ℚ,
      b.state = CircuitState.OPEN → b.last_failure_time = some t →
      cfg.timeout ≤ now - t →
      (check_state cfg b now).1.state = CircuitState.HALF_OPEN ∧
      (check_state cfg b now).2 = none) ∧
    (∀ b : CircuitBreaker,
      b.state = CircuitState.HALF_OPEN → b.success_count = 0 →
      (applySuccesses cfg b cfg.success_threshold).state
        = CircuitState.CLOSED ∧
      (applySuccesses cfg b cfg.success_threshold).failure_count = 0) ∧
    (∀ b : CircuitBreaker, ∀ now : ℚ,
      b.state = CircuitState.HALF_OPEN →
      (record_failure cfg b now).state = CircuitState.OPEN ∧
      (record_failure cfg b now).last_failure_time = some now) := by
  refine ⟨?_, ?_, ?_, ?_, ?_⟩
  · have h := applyFailures_opens cfg ts tN mkBreaker rfl
      (by simp only [mkBreaker]; omega)
    exact ⟨h.1, h.2.1⟩
  · intro b now t hs hl hlt
    have hr : should_attempt_reset cfg b now = false := by
      unfold should_attempt_reset
      rw [hl]
      simp only [decide_eq_false_iff_not, not_le]
      linarith
    unfold check_state state_property
    simp [hs, hr]
  · intro b now t hs hl hge
    have hr : should_attempt_reset cfg b now = true := by
      unfold should_attempt_reset
      rw [hl]
      exact decide_eq_true hge
    have htr : (transition_to b CircuitState.HALF_OPEN).state
        = CircuitState.HALF_OPEN := by
      unfold transition_to
      simp [hs]
    unfold check_state state_property
    simp [hs, hr, htr]
  · intro b hs hsc
    exact applySuccesses_closes cfg cfg.success_threshold b hs
      (by rw [hsc]; omega) hS
  · intro b now hs
    unfold record_failure transition_to
    simp [hs]

end Vault

namespace Vault

open Vault.Breaker

/-- C3 witnessed on the default configuration (5 failures, 2 successes, 30 s)
with five failures stamped at time 0. -/
theorem C3_witness :
    (0 < defaultConfig.success_threshold) ∧
    (([(0 : ℚ), 0, 0, 0]).length + 1 = defaultConfig.failure_threshold) ∧
    (((applyFailures defaultConfig mkBreaker ([(0 : ℚ), 0, 0, 0] ++ [0])).state
        = CircuitState.OPEN ∧
      (applyFailures defaultConfig mkBreaker
        ([(0 : ℚ), 0, 0, 0] ++ [0])).last_failure_time = some 0) ∧
    (∀ b : CircuitBreaker, ∀ now t : ℚ,
      b.state = CircuitState.OPEN → b.last_failure_time = some t →
      now - t < defaultConfig.timeout →
      (check_state defaultConfig b now).1 = b ∧
      (check_state defaultConfig b now).2.isSome = true) ∧
    (∀ b : CircuitBreaker, ∀ now t : ℚ,
      b.state = CircuitState.OPEN → b.last_failure_time = some t →
      defaultConfig.timeout ≤ now - t →
      (check_state defaultConfig b now).1.state = CircuitState.HALF_OPEN ∧
      (check_state defaultConfig b now).2 = none) ∧
    (∀ b : CircuitBreaker,
      b.state = CircuitState.HALF_OPEN → b.success_count = 0 →
      (applySuccesses defaultConfig b defaultConfig.success_threshold).state
        = CircuitState.CLOSED ∧
      (applySuccesses defaultConfig b
        defaultConfig.success_threshold).failure_count = 0) ∧
    (∀ b : CircuitBreaker, ∀ now : ℚ,
      b.state = CircuitState.HALF_OPEN →
      (record_failure defaultConfig b now).state = CircuitState.OPEN ∧
      (record_failure defaultConfig b now).last_failure_time = some now)) :=
  ⟨by decide, by decide,
   C3_circuit_breaker_state_machine defaultConfig (by decide)
     [(0 : ℚ), 0, 0, 0] 0 (by decide)⟩

end Vault

namespace Vault.Auth

/-- With no block recorded, a failed verification evolves the limiter exactly
as record_failure does. -/
theorem verify_failed_step (cfg : RateLimitConfig) (L : AuthRateLimiter)
    (key : String) (now : ℚ)
    (hb : lookupKey L.blocked_until key = none) :
    (verify_collection_key cfg L key now false).1
      = (record_failure cfg L key now).1 := by
  unfold verify_collection_key is_blocked
  rw [hb]
  rcases h2 : record_failure cfg L key now with ⟨L2, wb⟩
  cases wb
  · simp [h2]
  · simp [h2]

/-- record_failure, when every retained timestamp is within the window and the
threshold is not yet reached: the failure list grows by now and no block is
recorded. -/
theorem record_failure_step_not_full (cfg : RateLimitConfig)
    (L : AuthRateLimiter) (key : String) (now : ℚ) (acc : List ℚ)
    (hf : getFailures L key = acc)
    (hkeep : ∀ t ∈ acc, now - cfg.window_seconds < t)
    (hlen : acc.length + 1 < cfg.max_failures) :
    getFailures (record_failure cfg L key now).1 key = acc ++ [now] ∧
    (record_failure cfg L key now).1.blocked_until = L.blocked_until := by
  have hfil : acc.filter (fun t => decide (now - cfg.window_seconds < t)) = acc :=
    List.filter_eq_self.mpr (fun t ht => decide_eq_true (hkeep t ht))
  have hcond : ¬(cfg.max_failures ≤ (acc ++ [now]).length) := by
    simp only [List.length_append, List.length_cons, List.length_nil]
    omega
  unfold record_failure cleanup_old_failures
  simp only [hf, hfil]
  simp only [getFailures, lookupKey_setKey_self, Option.getD_some]
  rw [if_neg hcond]
  simp [getFailures, lookupKey_setKey_self]

/-- record_failure, when every retained timestamp is within the window and now
completes the threshold: the key is blocked until now plus block_seconds. -/
theorem record_failure_step_full (cfg : RateLimitConfig)
    (L : AuthRateLimiter) (key : String) (now : ℚ) (acc : List ℚ)
    (hf : getFailures L key = acc)
    (hkeep : ∀ t ∈ acc, now - cfg.window_seconds < t)
    (hlen : cfg.max_failures ≤ acc.length + 1) :
    lookupKey (record_failure cfg L key now).1.blocked_until key
      = some (now + cfg.block_seconds) := by
  have hfil : acc.filter (fun t => decide (now - cfg.window_seconds < t)) = acc :=
    List.filter_eq_self.mpr (fun t ht => decide_eq_true (hkeep t ht))
  have hcond : cfg.max_failures ≤ (acc ++ [now]).length := by
    simp only [List.length_append, List.length_cons, List.length_nil]
    omega
  unfold record_failure cleanup_old_failures
  simp only [hf, hfil]
  simp only [getFailures, lookupKey_setKey_self, Option.getD_some]
  rw [if_pos hcond]
  exact lookupKey_setKey_self _ _ _

/-- Folding failed verifications from a state whose retained failures all lie
inside the window ends with the key blocked until the last failure time plus
block_seconds. -/
theorem applyFailedVerifies_blocks (cfg : RateLimitConfig) (key : String)
    (tN : ℚ) :
    ∀ (rest : List ℚ) (acc : List ℚ) (L : AuthRateLimiter),
      getFailures L key = acc →
      lookupKey L.blocked_until key = none →
      acc.length + rest.length = cfg.max_failures →
      (∀ t ∈ acc, tN - cfg.window_seconds < t) →
      (∀ t ∈ rest, tN - cfg.window_seconds < t ∧ t ≤ tN) →
      rest.getLast? = some tN →
      lookupKey (applyFailedVerifies cfg L key rest).blocked_until key
        = some (tN + cfg.block_seconds) := by
  intro rest
  induction rest with
  | nil =>
    intro acc L _ _ _ _ _ hlast
    exact absurd hlast (by simp)
  | cons t rest ih =>
    intro acc L hf hb hlen hacc hrest hlast
    have ht := hrest t (List.mem_cons_self t rest)
    have hkeep : ∀ t' ∈ acc, t - cfg.window_seconds < t' := by
      intro t' h'
      have := hacc t' h'
      linarith [ht.2]
    have hstep : applyFailedVerifies cfg L key (t :: rest)
        = applyFailedVerifies cfg (verify_collection_key cfg L key t false).1
            key rest := rfl
    rw [hstep, verify_failed_step cfg L key t hb]
    cases rest with
    | nil =>
      have htN : t = tN := by
        simpa using hlast
      subst htN
      have hfull : cfg.max_failures ≤ acc.length + 1 := by
        simp only [List.length_cons, List.length_nil] at hlen
        omega
      exact record_failure_step_full cfg L key t acc hf hkeep hfull
    | cons x xs =>
      have hnotfull : acc.length + 1 < cfg.max_failures := by
        simp only [List.length_cons] at hlen
        omega
      obtain ⟨hgf, hbu⟩ :=
        record_failure_step_not_full cfg L key t acc hf hkeep hnotfull
      refine ih (acc ++ [t]) (record_failure cfg L key t).1 hgf ?_ ?_ ?_ ?_ ?_
      · rw [hbu]
        exact hb
      · simp only [List.length_append, List.length_nil,
          List.length_cons] at hlen ⊢
        omega
      · intro t' h'
        rcases List.mem_append.mp h' with h1 | h1
        · exact hacc t' h1
        · rw [List.mem_singleton.mp h1]
          exact ht.1
      · intro t' h'
        exact hrest t' (List.mem_cons_of_mem t h')
      · rw [← hlast]
        exact List.getLast?_cons_cons.symm

/-- While a block is live, verification is rejected with the remaining time,
whatever the presented key, and the limiter is left unchanged. -/
theorem verify_blocked (cfg : RateLimitConfig) (L : AuthRateLimiter)
    (key : String) (now bu : ℚ) (keyOk : Bool)
    (hb : lookupKey L.blocked_until key = some bu)
    (hpos : 0 < bu - now) :
    verify_collection_key cfg L key now keyOk
      = (L, AuthOutcome.rateLimited ⌊bu - now⌋) := by
  unfold verify_collection_key is_blocked
  rw [hb]
  simp [hpos]

/-- A successful verification outside a block clears the failure list and any
block entry for the key. -/
theorem verify_success_clears (cfg : RateLimitConfig) (L : AuthRateLimiter)
    (key : String) (now : ℚ)
    (hnb : (is_blocked L key now).1.1 = false) :
    lookupKey (verify_collection_key cfg L key now true).1.failures key
      = none ∧
    lookupKey (verify_collection_key cfg L key now true).1.blocked_until key
      = none := by
  simp [verify_collection_key, hnb, record_success, lookupKey_eraseKey]

end Vault.Auth

namespace Vault

open Vault.Auth

/-- C6: the auth limiter block. Starting from a state with no retained
failures and no block for the key, once max_failures failed verifications are
recorded at times all within window_seconds of the last one, the key is
blocked until that last time plus block_seconds; during the block every
verification attempt, with a correct key or not, answers RateLimited carrying
the floor of the remaining seconds as its Retry-After hint and leaves the
limiter unchanged; and a successful verification outside a block clears both
the recorded failure timestamps and any block for the key. -/
theorem C6_auth_limiter_block (cfg : RateLimitConfig) (key : String)
    (ts : List ℚ) (tN : ℚ) (L0 : AuthRateLimiter)
    (hf : getFailures L0 key = [])
    (hb : lookupKey L0.blocked_until key = none)
    (hlen : ts.length = cfg.max_failures)
    (hwin : ∀ t ∈ ts, tN - cfg.window_seconds < t ∧ t ≤ tN)
    (hlast : ts.getLast? = some tN) :
    lookupKey (applyFailedVerifies cfg L0 key ts).blocked_until key
      = some (tN + cfg.block_seconds) ∧
    (∀ now : ℚ, ∀ keyOk : Bool, now < tN + cfg.block_seconds →
      verify_collection_key cfg (applyFailedVerifies cfg L0 key ts) key now keyOk
        = (applyFailedVerifies cfg L0 key ts,
           AuthOutcome.rateLimited ⌊tN + cfg.block_seconds - now⌋)) ∧
    (∀ L : AuthRateLimiter, ∀ now : ℚ,
      (is_blocked L key now).1.1 = false →
      lookupKey (verify_collection_key cfg L key now true).1.failures key
        = none ∧
      lookupKey (verify_collection_key cfg L key now true).1.blocked_until key
        = none) := by
  have hblk := applyFailedVerifies_blocks cfg key tN ts [] L0 hf hb
    (by simpa using hlen) (by simp) hwin hlast
  refine ⟨hblk, ?_, fun L now h => verify_success_clears cfg L key now h⟩
  intro now keyOk hlt
  exact verify_blocked cfg _ key now _ keyOk hblk (by linarith)

end Vault

namespace Vault

open Vault.Auth

/-- C6 witnessed on the default configuration (5 failures, 60 s window, 300 s
block) with five failed attempts at times 0..4 from a fresh limiter. -/
theorem C6_witness :
    (getFailures mkLimiter ("1.2.3.4:alpha") = []) ∧
    (lookupKey mkLimiter.blocked_until ("1.2.3.4:alpha") = none) ∧
    (([(0 : ℚ), 1, 2, 3, 4]).length = defaultRateLimit.max_failures) ∧
    (∀ t ∈ [(0 : ℚ), 1, 2, 3, 4],
      (4 : ℚ) - defaultRateLimit.window_seconds < t ∧ t ≤ (4 : ℚ)) ∧
    (([(0 : ℚ), 1, 2, 3, 4]).getLast? = some 4) ∧
    (lookupKey
        (applyFailedVerifies defaultRateLimit mkLimiter ("1.2.3.4:alpha")
          [(0 : ℚ), 1, 2, 3, 4]).blocked_until ("1.2.3.4:alpha")
        = some ((4 : ℚ) + defaultRateLimit.block_seconds) ∧
    (∀ now : ℚ, ∀ keyOk : Bool,
      now < (4 : ℚ) + defaultRateLimit.block_seconds →
      verify_collection_key defaultRateLimit
        (applyFailedVerifies defaultRateLimit mkLimiter ("1.2.3.4:alpha")
          [(0 : ℚ), 1, 2, 3, 4]) ("1.2.3.4:alpha") now keyOk
        = (applyFailedVerifies defaultRateLimit mkLimiter ("1.2.3.4:alpha")
             [(0 : ℚ), 1, 2, 3, 4],
           AuthOutcome.rateLimited ⌊(4 : ℚ) + defaultRateLimit.block_seconds - now⌋)) ∧
    (∀ L : AuthRateLimiter, ∀ now : ℚ,
      (is_blocked L ("1.2.3.4:alpha") now).1.1 = false →
      lookupKey
          (verify_collection_key defaultRateLimit L ("1.2.3.4:alpha") now
            true).1.failures ("1.2.3.4:alpha") = none ∧
      lookupKey
          (verify_collection_key defaultRateLimit L ("1.2.3.4:alpha") now
            true).1.blocked_until ("1.2.3.4:alpha") = none)) :=
  ⟨rfl, rfl, rfl,
   by
     intro t ht
     simp only [List.mem_cons, List.not_mem_nil, or_false] at ht
     rcases ht with rfl | rfl | rfl | rfl | rfl <;>
       norm_num [defaultRateLimit],
   rfl,
   C6_auth_limiter_block defaultRateLimit ("1.2.3.4:alpha")
     [(0 : ℚ), 1, 2, 3, 4] 4 mkLimiter rfl rfl rfl
     (by
       intro t ht
       simp only [List.mem_cons, List.not_mem_nil, or_false] at ht
       rcases ht with rfl | rfl | rfl | rfl | rfl <;>
         norm_num [defaultRateLimit])
     rfl⟩

end Vault
